import Mathlib

/-!
Shallow embedding of `src/attendance_app.py` (attendance-rate engine).

Dates are modelled as day numbers: `dayNumber y m d` counts days since
0000-03-01 of the proleptic Gregorian calendar (an affine shift of the
Julian day number that `QDate` uses internally), valid for years ≥ 1.
Python `float` arithmetic in the rate computation is modelled exactly over
`ℚ`, with `round(x, 1)` modelled as round-half-to-even at one decimal.
Python dicts keyed by date strings are modelled either as association
lists (where only insertion order and values matter) or as extensional
maps `Nat → Option String` (for the mutable `attendance_data` store).
While loops are modelled by structural recursion on an explicit fuel
argument that bounds the number of iterations.
-/

namespace AttendanceApp

/- Status constants from class `AttendanceStatus` (the Python code uses the
Korean display strings themselves as the status values). -/
namespace AttendanceStatus

def PRESENT : String := "출석"

def ABSENT : String := "결석"

def LATE : String := "지각"

def EARLY : String := "조퇴"

def OUTING : String := "외출"

def SICK : String := "병결"

/-- `AttendanceStatus.ALL`. -/
def ALL : List String := [PRESENT, ABSENT, LATE, EARLY, OUTING, SICK]

end AttendanceStatus

/-- Number of entries of `data` whose value (status) is `s`.  This is the
final value of `counts[s]` produced by the tally loop in
`AttendanceCalculator.calculate` (the loop increments `counts[status]` for
each dict value that is a recognized status). -/
def tally {κ : Type} (data : List (κ × String)) (s : String) : Nat :=
  data.countP (fun p => p.2 == s)

/-- Python's two-argument `max`: returns the second argument exactly when it
is strictly larger. -/
def pymax (a b : ℚ) : ℚ :=
  if a < b then b else a

/-- Round-half-to-even of a rational to an integer (the rounding used by
Python's built-in `round`). -/
def rhe (x : ℚ) : ℤ :=
  if x - (⌊x⌋ : ℚ) < 1 / 2 then ⌊x⌋
  else if 1 / 2 < x - (⌊x⌋ : ℚ) then ⌊x⌋ + 1
  else if ⌊x⌋ % 2 = 0 then ⌊x⌋ else ⌊x⌋ + 1

/-- Python `round(x, 1)`: round to one decimal digit, half to even. -/
def round1 (x : ℚ) : ℚ :=
  ((rhe (10 * x) : ℚ)) / 10

/-- Result dictionary of `AttendanceCalculator.calculate`:
`{'rate': ..., 'counts': ..., 'final_absences': ...}`.  `counts` is kept as
an association list in the insertion order of the Python dict (the order of
`AttendanceStatus.ALL`); on the `total_weekdays == 0` branch the code
returns the empty dict `{}`. -/
structure CalcResult where
  rate : ℚ
  counts : List (String × Nat)
  final_absences : Nat
deriving DecidableEq

/-- `AttendanceCalculator.calculate(data, total_weekdays)`.  Keys of `data`
are irrelevant to the computation (only `data.values()` is read), so the
key type is a parameter. -/
def calculate {κ : Type} (data : List (κ × String)) (total_weekdays : Nat) :
    CalcResult :=
  if total_weekdays = 0 then
    { rate := 100, counts := [], final_absences := 0 }
  else
    let counts := AttendanceStatus.ALL.map (fun s => (s, tally data s))
    let direct_absent := tally data AttendanceStatus.ABSENT
    let late_pairs := tally data AttendanceStatus.LATE / 2
    let early_pairs := tally data AttendanceStatus.EARLY / 2
    let outing_pairs := tally data AttendanceStatus.OUTING / 2
    let same_type_penalty := late_pairs + early_pairs + outing_pairs
    let late_rem := tally data AttendanceStatus.LATE % 2
    let early_rem := tally data AttendanceStatus.EARLY % 2
    let outing_rem := tally data AttendanceStatus.OUTING % 2
    let mixed_type_penalty := (late_rem + early_rem + outing_rem) / 3
    let final_absences := direct_absent + same_type_penalty + mixed_type_penalty
    let rate :=
      (((total_weekdays : ℚ) - (final_absences : ℚ)) / (total_weekdays : ℚ)) * 100
    { rate := pymax 0 (round1 rate)
      counts := counts
      final_absences := final_absences }

/- Date model: `isLeap`, `daysInMonth`, and day numbers (days since
0000-03-01 proleptic Gregorian, an affine shift of `QDate`'s Julian day
number), with `dayOfWeek` matching `QDate.dayOfWeek` (Monday = 1 through
Sunday = 7). -/

def isLeap (y : Nat) : Bool :=
  y % 4 == 0 && (y % 100 != 0 || y % 400 == 0)

def daysInMonth (y m : Nat) : Nat :=
  if m = 2 then (if isLeap y then 29 else 28)
  else if m = 4 ∨ m = 6 ∨ m = 9 ∨ m = 11 then 30
  else 31

/-- Day number of the calendar date `y-m-d` (days since 0000-03-01), valid
for `y ≥ 1`. -/
def dayNumber (y m d : Nat) : Nat :=
  let yp := if 3 ≤ m then y else y - 1
  let mp := if 3 ≤ m then m - 3 else m + 9
  365 * yp + yp / 4 - yp / 100 + yp / 400 + (153 * mp + 2) / 5 + (d - 1)

/-- `QDate.dayOfWeek`: Monday = 1, ..., Sunday = 7. -/
def dayOfWeek (n : Nat) : Nat :=
  (n + 2) % 7 + 1

/-- The membership test `current.dayOfWeek() in [1, 2, 3, 4, 5]` used
throughout the code. -/
def isWeekday (n : Nat) : Bool :=
  [1, 2, 3, 4, 5].contains (dayOfWeek n)

/-- The loop of `AttendanceCalculator.count_weekdays`, with an explicit
fuel argument bounding the number of iterations (the loop runs once per day
of the inclusive range). -/
def cwFuel : Nat → Nat → Nat → Nat
  | 0, _, _ => 0
  | fuel + 1, current, e =>
    if current ≤ e then (if isWeekday current then 1 else 0) + cwFuel fuel (current + 1) e
    else 0

/-- `AttendanceCalculator.count_weekdays(start_date, end_date)`: walk from
`start_date` while `current <= end_date`, counting weekdays. -/
def count_weekdays (start_date end_date : Nat) : Nat :=
  cwFuel (end_date + 1 - start_date) start_date end_date

/-- A `QDate` as the calendar triple it prints as (`yyyy-MM-dd`). -/
structure Date where
  year : Nat
  month : Nat
  day : Nat
deriving DecidableEq

def dayNum (dt : Date) : Nat :=
  dayNumber dt.year dt.month dt.day

/-- `QDate.addMonths(1)`: advance the month (rolling the year), clamping the
day to the length of the resulting month. -/
def addMonths1 (dt : Date) : Date :=
  if dt.month = 12 then
    { year := dt.year + 1, month := 1, day := min dt.day (daysInMonth (dt.year + 1) 1) }
  else
    { year := dt.year, month := dt.month + 1
      day := min dt.day (daysInMonth dt.year (dt.month + 1)) }

/-- One saved entry of `self.saved_monthly_records`. -/
structure MonthRecord where
  month : String
  rate : ℚ
  counts : List (String × Nat)
  weekdays : Nat
  saved_date : Nat
deriving DecidableEq

/-- The mutable state of `AttendanceMainWindow` that the engine reads and
writes: `attendance_data` (date → status), `saved_monthly_records`
(month key → saved snapshot), and the rolling period `[start_date, end_date]`. -/
structure AppState where
  attendance_data : Nat → Option String
  saved_monthly_records : Nat × Nat → Option MonthRecord
  start_date : Date
  end_date : Date

/-- `get_period_data`: walk the days of the period in order, keeping the
dates that have an entry in `attendance_data`. -/
def get_period_data (st : AppState) : List (Nat × String) :=
  (List.range (dayNum st.end_date + 1 - dayNum st.start_date)).filterMap
    (fun i => (st.attendance_data (dayNum st.start_date + i)).map
      (fun v => (dayNum st.start_date + i, v)))

/-- `save_current_month`: compute the rate over the current period and store
the snapshot under the `(year, month)` key of the period's start date
(`today` stands for `QDate.currentDate()`, used only for `saved_date`). -/
def save_current_month (today : Nat) (st : AppState) : AppState :=
  let period_data := get_period_data st
  let total_weekdays := count_weekdays (dayNum st.start_date) (dayNum st.end_date)
  let result := calculate period_data total_weekdays
  let year := st.start_date.year
  let month := st.start_date.month
  let month_key := (year, month)
  { st with saved_monthly_records := fun k =>
      if k = month_key then
        some { month := toString year ++ "년 " ++ toString month ++ "월"
               rate := result.rate
               counts := result.counts
               weekdays := total_weekdays
               saved_date := today }
      else st.saved_monthly_records k }

/-- One step of the `initialize_data` loop: on a weekday with no existing
entry, set the date to PRESENT; otherwise leave the map unchanged. -/
def stepInit (data : Nat → Option String) (current : Nat) : Nat → Option String :=
  if isWeekday current then
    match data current with
    | none => fun d => if d = current then some AttendanceStatus.PRESENT else data d
    | some _ => data
  else data

/-- The `initialize_data` loop with explicit fuel. -/
def initLoop : Nat → (Nat → Option String) → Nat → Nat → (Nat → Option String)
  | 0, data, _, _ => data
  | fuel + 1, data, current, e =>
    if current ≤ e then initLoop fuel (stepInit data current) (current + 1) e else data

/-- `AttendanceMainWindow.initialize_data` acting on the `attendance_data`
map, walking the days of `[s, e]`. -/
def initialize_data (data : Nat → Option String) (s e : Nat) : Nat → Option String :=
  initLoop (e + 1 - s) data s e

/-- The weekday dates of month `(y, m)` in calendar order (the inner loop of
`initialize_sample_data` visits exactly these dates). -/
def monthWeekdayDates (y m : Nat) : List Nat :=
  (List.range (daysInMonth y m)).filterMap
    (fun i => if isWeekday (dayNumber y m 1 + i) then some (dayNumber y m 1 + i) else none)

/-- The per-month `month_data` dict of `initialize_sample_data`; the random
draw of a status for each date is abstracted by the parameter `statusOf`. -/
def month_data (statusOf : Nat → String) (y m : Nat) : List (Nat × String) :=
  (monthWeekdayDates y m).map (fun d => (d, statusOf d))

/-- The snapshot `initialize_sample_data` stores for month `(y, m)`:
rate/counts over that month's own data, weekday total over the month's own
first/last-day span, `saved_date` being the month's last day. -/
def monthEntry (statusOf : Nat → String) (y m : Nat) : MonthRecord :=
  let month_start := dayNumber y m 1
  let month_end := dayNumber y m (daysInMonth y m)
  let total_weekdays := count_weekdays month_start month_end
  let result := calculate (month_data statusOf y m) total_weekdays
  { month := toString y ++ "년 " ++ toString m ++ "월"
    rate := result.rate
    counts := result.counts
    weekdays := total_weekdays
    saved_date := month_end }

/-- The month-walking loop of `initialize_sample_data`, with explicit fuel:
starting at `(y, m)`, while `(y, m)` is strictly before the current month
`(cy, cm)` (the code's lexicographic condition), emit the month's key and
snapshot and advance to the next calendar month. -/
def sampleLoop (statusOf : Nat → String) :
    Nat → Nat → Nat → Nat → Nat → List ((Nat × Nat) × MonthRecord)
  | 0, _, _, _, _ => []
  | fuel + 1, y, m, cy, cm =>
    if y < cy ∨ (y = cy ∧ m < cm) then
      ((y, m), monthEntry statusOf y m) ::
        sampleLoop statusOf fuel (if m = 12 then y + 1 else y)
          (if m = 12 then 1 else m + 1) cy cm
    else []

/-- `AttendanceMainWindow.initialize_sample_data`: the monthly series it
generates and saves, walking from the hard-coded start August 2025 while
strictly before the current month `(cy, cm)`.  The fuel `12 * cy + cm`
bounds the number of iterations. -/
def initialize_sample_data (statusOf : Nat → String) (cy cm : Nat) :
    List ((Nat × Nat) × MonthRecord) :=
  sampleLoop statusOf (12 * cy + cm) 2025 8 cy cm

/-- Linear index of a calendar month (months with `1 ≤ m ≤ 12` get
consecutive indices). -/
def monthIdx (y m : Nat) : Nat :=
  12 * y + m

/-- Inverse of `monthIdx` on valid months. -/
def idxToMonth (k : Nat) : Nat × Nat :=
  ((k - 1) / 12, (k - 1) % 12 + 1)

/-- The consecutive calendar months with indices `a, a+1, ..., b-1`, in
ascending order (the spec-side description of a month walk). -/
def monthRange (a b : Nat) : List (Nat × Nat) :=
  (List.range (b - a)).map (fun i => idxToMonth (a + i))

/- Concrete fixtures used by witnesses and counterexamples. -/

/-- Three late days (concrete case B of the spec). -/
def lateTriple : List (String × String) :=
  [("2025-08-18", AttendanceStatus.LATE), ("2025-08-19", AttendanceStatus.LATE),
    ("2025-08-20", AttendanceStatus.LATE)]

/-- Two absences against a single weekday. -/
def absentTwice : List (String × String) :=
  [("2025-08-18", AttendanceStatus.ABSENT), ("2025-08-19", AttendanceStatus.ABSENT)]

/-- A small concrete application state: period 2025-08-15 to 2025-09-15,
one recorded absence, no saved snapshots. -/
def st0 : AppState :=
  { attendance_data := fun d =>
      if d = dayNumber 2025 8 18 then some AttendanceStatus.ABSENT else none
    saved_monthly_records := fun _ => none
    start_date := { year := 2025, month := 8, day := 15 }
    end_date := { year := 2025, month := 9, day := 15 } }

/-- A small concrete attendance map with one pre-existing (sick) entry. -/
def data9 : Nat → Option String :=
  fun d => if d = dayNumber 2025 8 18 then some AttendanceStatus.SICK else none

/- ------------------------------------------------------------------ -/
/- Helper lemmas. -/

theorem pymax_eq_max (a b : ℚ) : pymax a b = max a b := by
  unfold pymax
  split
  · exact (max_eq_right (le_of_lt (by assumption))).symm
  · exact (max_eq_left (not_lt.mp (by assumption))).symm

theorem rhe_ge_floor (x : ℚ) : ⌊x⌋ ≤ rhe x := by
  unfold rhe
  split_ifs <;> omega

theorem rhe_le_floor_add_one (x : ℚ) : rhe x ≤ ⌊x⌋ + 1 := by
  unfold rhe
  split_ifs <;> omega

theorem rhe_mono {x y : ℚ} (h : x ≤ y) : rhe x ≤ rhe y := by
  rcases lt_or_eq_of_le (Int.floor_mono h) with hf | hf
  · calc rhe x ≤ ⌊x⌋ + 1 := rhe_le_floor_add_one x
      _ ≤ ⌊y⌋ := by omega
      _ ≤ rhe y := rhe_ge_floor y
  · unfold rhe
    rw [hf]
    have hr : x - (⌊y⌋ : ℚ) ≤ y - (⌊y⌋ : ℚ) := by linarith
    split_ifs <;> first | omega | linarith

theorem rhe_intCast (n : ℤ) : rhe ((n : ℚ)) = n := by
  unfold rhe
  rw [Int.floor_intCast]
  norm_num

theorem round1_eq_of (x : ℚ) (n : ℤ) (h : 10 * x = (n : ℚ)) :
    round1 x = (n : ℚ) / 10 := by
  unfold round1
  rw [h, rhe_intCast]

theorem round1_mono {x y : ℚ} (h : x ≤ y) : round1 x ≤ round1 y := by
  unfold round1
  have := rhe_mono (by linarith : 10 * x ≤ 10 * y)
  have hc : ((rhe (10 * x) : ℚ)) ≤ ((rhe (10 * y) : ℚ)) := by exact_mod_cast this
  linarith

theorem round1_hundred : round1 100 = 100 := by
  rw [round1_eq_of 100 1000 (by norm_num)]
  norm_num

theorem calculate_zero {κ : Type} (data : List (κ × String)) :
    calculate data 0 = { rate := 100, counts := [], final_absences := 0 } :=
  rfl

theorem calculate_final_absences_eq {κ : Type} (data : List (κ × String))
    (tw : Nat) (h : tw ≠ 0) :
    (calculate data tw).final_absences =
      tally data AttendanceStatus.ABSENT +
        (tally data AttendanceStatus.LATE / 2 + tally data AttendanceStatus.EARLY / 2 +
          tally data AttendanceStatus.OUTING / 2) +
        (tally data AttendanceStatus.LATE % 2 + tally data AttendanceStatus.EARLY % 2 +
          tally data AttendanceStatus.OUTING % 2) / 3 := by
  simp only [calculate, if_neg h]

theorem calculate_counts_eq {κ : Type} (data : List (κ × String))
    (tw : Nat) (h : tw ≠ 0) :
    (calculate data tw).counts =
      AttendanceStatus.ALL.map (fun s => (s, tally data s)) := by
  simp only [calculate, if_neg h]

theorem calculate_rate_eq {κ : Type} (data : List (κ × String))
    (tw : Nat) (h : tw ≠ 0) :
    (calculate data tw).rate =
      pymax 0 (round1
        ((((tw : ℚ) - (((calculate data tw).final_absences : Nat) : ℚ)) / (tw : ℚ)) * 100)) := by
  simp only [calculate, if_neg h]

theorem cwFuel_eq (fuel : Nat) : ∀ s e : Nat, e + 1 - s ≤ fuel →
    cwFuel fuel s e = ((Finset.Icc s e).filter (fun d => isWeekday d = true)).card := by
  induction fuel with
  | zero =>
    intro s e hf
    have hse : ¬ s ≤ e := by omega
    rw [Finset.Icc_eq_empty hse]
    simp [cwFuel]
  | succ fuel ih =>
    intro s e hf
    by_cases hse : s ≤ e
    · have hIoc : insert s (Finset.Ioc s e) = Finset.Icc s e := Finset.Ioc_insert_left hse
      have hIcc : Finset.Ioc s e = Finset.Icc (s + 1) e := (Nat.Icc_succ_left s e).symm
      rw [cwFuel, if_pos hse, ih (s + 1) e (by omega), ← hIoc, Finset.filter_insert]
      by_cases hw : isWeekday s = true
      · simp only [if_pos hw]
        rw [Finset.card_insert_of_not_mem, hIcc]
        · omega
        · intro hmem
          have hm := (Finset.mem_filter.mp hmem).1
          rw [Finset.mem_Ioc] at hm
          omega
      · simp only [if_neg hw]
        rw [hIcc]
        omega
    · rw [cwFuel, if_neg hse, Finset.Icc_eq_empty hse]
      simp

theorem tally_cons {κ : Type} (k : κ) (v : String) (data : List (κ × String))
    (s : String) :
    tally ((k, v) :: data) s = tally data s + (if v == s then 1 else 0) := by
  unfold tally
  rw [List.countP_cons]

theorem tally_filter_recognized {κ : Type} (data : List (κ × String)) (s : String)
    (hs : AttendanceStatus.ALL.contains s = true) :
    tally (data.filter (fun p => AttendanceStatus.ALL.contains p.2)) s = tally data s := by
  unfold tally
  rw [List.countP_filter]
  apply List.countP_congr
  intro a _
  cases hb : (a.2 == s) with
  | true =>
    have ha : a.2 = s := eq_of_beq hb
    rw [ha, hs]
    simp
  | false => simp [hb]

theorem stepInit_eval (data : Nat → Option String) (c d : Nat) :
    stepInit data c d =
      if d = c ∧ isWeekday c = true ∧ data c = none
      then some AttendanceStatus.PRESENT else data d := by
  unfold stepInit
  cases hw : isWeekday c with
  | false => simp [hw]
  | true =>
    cases hdc : data c with
    | none =>
      by_cases hd : d = c <;> simp [hd, hdc]
    | some v =>
      simp [hdc]

theorem initLoop_eq (fuel : Nat) : ∀ (data : Nat → Option String) (s e d : Nat),
    e + 1 - s ≤ fuel →
    initLoop fuel data s e d =
      if s ≤ d ∧ d ≤ e ∧ isWeekday d = true ∧ data d = none
      then some AttendanceStatus.PRESENT else data d := by
  induction fuel with
  | zero =>
    intro data s e d hf
    have hC : ¬ (s ≤ d ∧ d ≤ e ∧ isWeekday d = true ∧ data d = none) := by
      rintro ⟨h1, h2, _, _⟩
      omega
    rw [initLoop, if_neg hC]
  | succ fuel ih =>
    intro data s e d hf
    by_cases hse : s ≤ e
    · rw [initLoop, if_pos hse, ih (stepInit data s) (s + 1) e d (by omega)]
      rcases eq_or_ne d s with hd | hd
      · subst hd
        rw [stepInit_eval]
        have h1 : ¬ (d + 1 ≤ d) := by omega
        simp only [h1, false_and, if_false]
        have h2 : (d = d) = True := by simp
        have h3 : (d ≤ d) = True := by simp
        have h4 : (d ≤ e) = True := by simp [hse]
        simp only [h2, h3, h4, true_and]
      · have hstep : stepInit data s d = data d := by
          rw [stepInit_eval]
          simp [hd]
        rw [hstep]
        have hiff : (s + 1 ≤ d) ↔ (s ≤ d) := by omega
        simp only [hiff]
    · rw [initLoop, if_neg hse]
      have hC : ¬ (s ≤ d ∧ d ≤ e ∧ isWeekday d = true ∧ data d = none) := by
        rintro ⟨h1, h2, _, _⟩
        omega
      rw [if_neg hC]

theorem idxToMonth_monthIdx (y m : Nat) (h1 : 1 ≤ m) (h2 : m ≤ 12) :
    idxToMonth (12 * y + m) = (y, m) := by
  unfold idxToMonth
  have hd : (12 * y + m - 1) / 12 = y := by omega
  have hm : (12 * y + m - 1) % 12 = m - 1 := by omega
  rw [hd, hm, Prod.mk.injEq]
  omega

theorem monthRange_cons (a b : Nat) (h : a < b) :
    monthRange a b = idxToMonth a :: monthRange (a + 1) b := by
  unfold monthRange
  have hb : b - a = (b - (a + 1)) + 1 := by omega
  rw [hb, List.range_succ_eq_map, List.map_cons, List.map_map]
  have h0 : a + 0 = a := by omega
  rw [h0]
  congr 1
  apply List.map_congr_left
  intro i _
  have : a + (i + 1) = a + 1 + i := by omega
  simp [Function.comp, this]

theorem monthRange_nil (a b : Nat) (h : b ≤ a) : monthRange a b = [] := by
  unfold monthRange
  have : b - a = 0 := by omega
  rw [this]
  rfl

theorem sampleLoop_entry_shape (statusOf : Nat → String) (fuel : Nat) :
    ∀ y m cy cm p, p ∈ sampleLoop statusOf fuel y m cy cm →
      p.2 = monthEntry statusOf p.1.1 p.1.2 := by
  induction fuel with
  | zero =>
    intro y m cy cm p hp
    rw [sampleLoop] at hp
    cases hp
  | succ fuel ih =>
    intro y m cy cm p hp
    rw [sampleLoop] at hp
    by_cases hg : y < cy ∨ (y = cy ∧ m < cm)
    · rw [if_pos hg] at hp
      rcases List.mem_cons.mp hp with hp | hp
      · subst hp
        rfl
      · exact ih _ _ _ _ p hp
    · rw [if_neg hg] at hp
      cases hp

theorem sampleLoop_keys (statusOf : Nat → String) (fuel : Nat) :
    ∀ y m cy cm, 1 ≤ m → m ≤ 12 → 1 ≤ cm → cm ≤ 12 →
      12 * cy + cm ≤ 12 * y + m + fuel →
      (sampleLoop statusOf fuel y m cy cm).map Prod.fst =
        monthRange (12 * y + m) (12 * cy + cm) := by
  induction fuel with
  | zero =>
    intro y m cy cm hm1 hm2 hc1 hc2 hf
    rw [sampleLoop, monthRange_nil _ _ (by omega)]
    rfl
  | succ fuel ih =>
    intro y m cy cm hm1 hm2 hc1 hc2 hf
    have hguard : (y < cy ∨ (y = cy ∧ m < cm)) ↔ 12 * y + m < 12 * cy + cm := by omega
    by_cases hg : y < cy ∨ (y = cy ∧ m < cm)
    · have hlt : 12 * y + m < 12 * cy + cm := hguard.mp hg
      rw [sampleLoop, if_pos hg, List.map_cons]
      have hnext : 12 * (if m = 12 then y + 1 else y) + (if m = 12 then 1 else m + 1) =
          12 * y + m + 1 := by
        split <;> omega
      rw [ih (if m = 12 then y + 1 else y) (if m = 12 then 1 else m + 1) cy cm
            (by split <;> omega)
            (by split <;> omega)
            hc1 hc2 (by omega), hnext,
          monthRange_cons _ _ hlt, idxToMonth_monthIdx y m hm1 hm2]
    · have hge : 12 * cy + cm ≤ 12 * y + m := by
        rcases Nat.lt_or_ge (12 * y + m) (12 * cy + cm) with hlt | hge
        · exact absurd (hguard.mpr hlt) hg
        · exact hge
      rw [sampleLoop, if_neg hg, monthRange_nil _ _ hge]
      rfl

theorem final_absences_cons_late (data : List (String × String)) (tw : Nat)
    (k : String) (h : tw ≠ 0) :
    (calculate data tw).final_absences ≤
      (calculate ((k, AttendanceStatus.LATE) :: data) tw).final_absences := by
  rw [calculate_final_absences_eq _ _ h, calculate_final_absences_eq _ _ h]
  simp only [tally_cons,
    show (AttendanceStatus.LATE == AttendanceStatus.ABSENT) = false from by decide,
    show (AttendanceStatus.LATE == AttendanceStatus.LATE) = true from by decide,
    show (AttendanceStatus.LATE == AttendanceStatus.EARLY) = false from by decide,
    show (AttendanceStatus.LATE == AttendanceStatus.OUTING) = false from by decide,
    if_true, if_false]
  omega

theorem final_absences_cons_early (data : List (String × String)) (tw : Nat)
    (k : String) (h : tw ≠ 0) :
    (calculate data tw).final_absences ≤
      (calculate ((k, AttendanceStatus.EARLY) :: data) tw).final_absences := by
  rw [calculate_final_absences_eq _ _ h, calculate_final_absences_eq _ _ h]
  simp only [tally_cons,
    show (AttendanceStatus.EARLY == AttendanceStatus.ABSENT) = false from by decide,
    show (AttendanceStatus.EARLY == AttendanceStatus.LATE) = false from by decide,
    show (AttendanceStatus.EARLY == AttendanceStatus.EARLY) = true from by decide,
    show (AttendanceStatus.EARLY == AttendanceStatus.OUTING) = false from by decide,
    if_true, if_false]
  omega

theorem final_absences_cons_outing (data : List (String × String)) (tw : Nat)
    (k : String) (h : tw ≠ 0) :
    (calculate data tw).final_absences ≤
      (calculate ((k, AttendanceStatus.OUTING) :: data) tw).final_absences := by
  rw [calculate_final_absences_eq _ _ h, calculate_final_absences_eq _ _ h]
  simp only [tally_cons,
    show (AttendanceStatus.OUTING == AttendanceStatus.ABSENT) = false from by decide,
    show (AttendanceStatus.OUTING == AttendanceStatus.LATE) = false from by decide,
    show (AttendanceStatus.OUTING == AttendanceStatus.EARLY) = false from by decide,
    show (AttendanceStatus.OUTING == AttendanceStatus.OUTING) = true from by decide,
    if_true, if_false]
  omega

theorem rate_le_of_final_absences_le (data data2 : List (String × String)) (tw : Nat)
    (htw : 0 < tw)
    (hfa : (calculate data tw).final_absences ≤ (calculate data2 tw).final_absences) :
    (calculate data2 tw).rate ≤ (calculate data tw).rate := by
  have h : tw ≠ 0 := by omega
  rw [calculate_rate_eq _ _ h, calculate_rate_eq _ _ h, pymax_eq_max, pymax_eq_max]
  apply max_le_max le_rfl
  apply round1_mono
  have htwQ : (0 : ℚ) < (tw : ℚ) := by exact_mod_cast htw
  have hfaQ : (((calculate data tw).final_absences : Nat) : ℚ) ≤
      (((calculate data2 tw).final_absences : Nat) : ℚ) := by
    exact_mod_cast hfa
  have hdiv : ((tw : ℚ) - (((calculate data2 tw).final_absences : Nat) : ℚ)) / (tw : ℚ) ≤
      ((tw : ℚ) - (((calculate data tw).final_absences : Nat) : ℚ)) / (tw : ℚ) :=
    (div_le_div_iff_of_pos_right htwQ).mpr (by linarith)
  linarith

theorem CalcResult.ext_of (a b : CalcResult) (h1 : a.rate = b.rate)
    (h2 : a.counts = b.counts) (h3 : a.final_absences = b.final_absences) :
    a = b := by
  cases a
  cases b
  simp_all

theorem final_absences_filter_eq (data : List (String × String)) (tw : Nat)
    (h : tw ≠ 0) :
    (calculate data tw).final_absences =
      (calculate (data.filter (fun p => AttendanceStatus.ALL.contains p.2)) tw).final_absences := by
  have hA := tally_filter_recognized data AttendanceStatus.ABSENT (by decide)
  have hL := tally_filter_recognized data AttendanceStatus.LATE (by decide)
  have hE := tally_filter_recognized data AttendanceStatus.EARLY (by decide)
  have hO := tally_filter_recognized data AttendanceStatus.OUTING (by decide)
  rw [calculate_final_absences_eq _ _ h, calculate_final_absences_eq _ _ h, hA, hL, hE, hO]

theorem counts_filter_eq (data : List (String × String)) (tw : Nat) (h : tw ≠ 0) :
    (calculate data tw).counts =
      (calculate (data.filter (fun p => AttendanceStatus.ALL.contains p.2)) tw).counts := by
  rw [calculate_counts_eq _ _ h, calculate_counts_eq _ _ h]
  apply List.map_congr_left
  intro s hsmem
  rw [tally_filter_recognized data s (List.elem_eq_true_of_mem hsmem)]

theorem rate_filter_eq (data : List (String × String)) (tw : Nat) (h : tw ≠ 0) :
    (calculate data tw).rate =
      (calculate (data.filter (fun p => AttendanceStatus.ALL.contains p.2)) tw).rate := by
  rw [calculate_rate_eq _ _ h, calculate_rate_eq _ _ h, final_absences_filter_eq data tw h]

/- ------------------------------------------------------------------ -/
/- Claims. -/

/-- C1: for every records map and every `totalWeekdays > 0`,
`AttendanceCalculator.calculate` returns `finalAbsences` equal to
`counts[Absent]`, plus the sum over s in {Late, EarlyLeave, Outing} of
`counts[s] div 2`, plus (the sum over those three statuses of
`counts[s] mod 2`) div 3, where `counts[s]` (= `tally data s`) is the
number of entries of the records map whose status is `s`. -/
theorem C1_final_absences_formula (data : List (String × String)) (tw : Nat)
    (htw : 0 < tw) :
    (calculate data tw).final_absences =
      tally data AttendanceStatus.ABSENT +
        (tally data AttendanceStatus.LATE / 2 + tally data AttendanceStatus.EARLY / 2 +
          tally data AttendanceStatus.OUTING / 2) +
        (tally data AttendanceStatus.LATE % 2 + tally data AttendanceStatus.EARLY % 2 +
          tally data AttendanceStatus.OUTING % 2) / 3 :=
  calculate_final_absences_eq data tw (by omega)

/-- Witness for C1 at the concrete three-lates map and 20 weekdays. -/
theorem C1_final_absences_formula_witness :
    (0 : Nat) < 20 ∧
      (calculate lateTriple 20).final_absences =
        tally lateTriple AttendanceStatus.ABSENT +
          (tally lateTriple AttendanceStatus.LATE / 2 +
            tally lateTriple AttendanceStatus.EARLY / 2 +
            tally lateTriple AttendanceStatus.OUTING / 2) +
          (tally lateTriple AttendanceStatus.LATE % 2 +
            tally lateTriple AttendanceStatus.EARLY % 2 +
            tally lateTriple AttendanceStatus.OUTING % 2) / 3 :=
  ⟨by norm_num, C1_final_absences_formula lateTriple 20 (by norm_num)⟩

/-- C2 counterexample: on the `totalWeekdays = 0` branch the code returns the
empty counts dict `{}`, so the claim that every one of the 6 statuses maps
to 0 fails: looking up PRESENT in the returned counts yields `none`, not
`some 0`. -/
theorem C2_zero_counts_counterexample :
    ¬ ((calculate [("2025-08-18", AttendanceStatus.ABSENT)] 0).counts.lookup
        AttendanceStatus.PRESENT = some 0) := by
  decide

/-- C2 (amended): when `totalWeekdays = 0`, `calculate` returns rate 100.0,
finalAbsences 0, and the EMPTY counts map (no status keys at all — it reads
as zero for every status only under a default-0 lookup), regardless of the
contents of records. -/
theorem C2_zero_weekdays_amended (data : List (String × String)) :
    (calculate data 0).rate = 100 ∧ (calculate data 0).counts = [] ∧
      (calculate data 0).final_absences = 0 :=
  ⟨rfl, rfl, rfl⟩

/-- C4: for every records map and every totalWeekdays, the returned rate is
between 0 and 100 and has at most one decimal digit (10 times the rate is
an integer). -/
theorem C4_rate_bounds (data : List (String × String)) (tw : Nat) :
    0 ≤ (calculate data tw).rate ∧ (calculate data tw).rate ≤ 100 ∧
      ∃ k : ℤ, (calculate data tw).rate * 10 = (k : ℚ) := by
  by_cases h : tw = 0
  · subst h
    exact ⟨by norm_num [calculate], by norm_num [calculate], 1000, by norm_num [calculate]⟩
  · rw [calculate_rate_eq data tw h, pymax_eq_max]
    have htwQ : (0 : ℚ) < (tw : ℚ) := by
      exact_mod_cast Nat.pos_of_ne_zero h
    have hfaQ : (0 : ℚ) ≤ (((calculate data tw).final_absences : Nat) : ℚ) := by
      positivity
    have hx100 :
        (((tw : ℚ) - (((calculate data tw).final_absences : Nat) : ℚ)) / (tw : ℚ)) * 100 ≤
          100 := by
      have h1 : ((tw : ℚ) - (((calculate data tw).final_absences : Nat) : ℚ)) / (tw : ℚ) ≤ 1 := by
        rw [div_le_one htwQ]
        linarith
      linarith
    refine ⟨le_max_left 0 _, ?_, ?_⟩
    · apply max_le (by norm_num)
      calc round1 _ ≤ round1 100 := round1_mono hx100
        _ = 100 := round1_hundred
    · refine ⟨max 0 (rhe (10 * ((((tw : ℚ) -
        (((calculate data tw).final_absences : Nat) : ℚ)) / (tw : ℚ)) * 100))), ?_⟩
      rw [round1, max_mul_of_nonneg _ _ (by norm_num : (0 : ℚ) ≤ 10),
        div_mul_cancel₀ _ (by norm_num : (10 : ℚ) ≠ 0), Int.cast_max]
      norm_num

/-- C5: for every records map, every totalWeekdays > 0 and every
penalty-eligible status s, adding one more entry of status s (a fresh key,
all other entries unchanged) never increases the returned rate. -/
theorem C5_penalty_monotone (data : List (String × String)) (tw : Nat)
    (k : String) (s : String) (htw : 0 < tw)
    (hs : s = AttendanceStatus.LATE ∨ s = AttendanceStatus.EARLY ∨
      s = AttendanceStatus.OUTING) :
    (calculate ((k, s) :: data) tw).rate ≤ (calculate data tw).rate := by
  have h : tw ≠ 0 := by omega
  rcases hs with hs | hs | hs
  · rw [hs]
    exact rate_le_of_final_absences_le data _ tw htw (final_absences_cons_late data tw k h)
  · rw [hs]
    exact rate_le_of_final_absences_le data _ tw htw (final_absences_cons_early data tw k h)
  · rw [hs]
    exact rate_le_of_final_absences_le data _ tw htw (final_absences_cons_outing data tw k h)

/-- Witness for C5: one extra outing on top of three lates, 20 weekdays. -/
theorem C5_penalty_monotone_witness :
    (0 : Nat) < 20 ∧
      (calculate (("2025-08-21", AttendanceStatus.OUTING) :: lateTriple) 20).rate ≤
        (calculate lateTriple 20).rate :=
  ⟨by norm_num,
    C5_penalty_monotone lateTriple 20 "2025-08-21" AttendanceStatus.OUTING
      (by norm_num) (Or.inr (Or.inr rfl))⟩

/-- C6: `count_weekdays` equals the number of day numbers in the inclusive
range whose weekday is Monday through Friday, equals 0 when start > end,
and on the concrete leap-year span 2024-02-26 .. 2024-03-01 yields 5. -/
theorem C6_count_weekdays_correct :
    (∀ s e : Nat, count_weekdays s e =
        ((Finset.Icc s e).filter (fun d => isWeekday d = true)).card)
    ∧ (∀ s e : Nat, e < s → count_weekdays s e = 0)
    ∧ count_weekdays (dayNumber 2024 2 26) (dayNumber 2024 3 1) = 5 := by
  refine ⟨?_, ?_, ?_⟩
  · intro s e
    exact cwFuel_eq (e + 1 - s) s e le_rfl
  · intro s e hlt
    have h0 : e + 1 - s = 0 := by omega
    rw [count_weekdays, h0]
    rfl
  · decide

/-- Witness for C6's start > end clause at a concrete reversed range. -/
theorem C6_count_weekdays_correct_witness :
    count_weekdays 5 3 = 0 :=
  C6_count_weekdays_correct.2.1 5 3 (by norm_num)

/-- C7: entries whose status is not one of the 6 recognized values are
silently ignored: the whole result (rate, counts, finalAbsences) equals the
result on the same map with those entries removed. -/
theorem C7_unrecognized_ignored (data : List (String × String)) (tw : Nat) :
    calculate data tw =
      calculate (data.filter (fun p => AttendanceStatus.ALL.contains p.2)) tw := by
  by_cases h : tw = 0
  · subst h
    rw [calculate_zero, calculate_zero]
  · exact CalcResult.ext_of _ _ (rate_filter_eq data tw h) (counts_filter_eq data tw h)
      (final_absences_filter_eq data tw h)

/-- C10: finalAbsences is not clamped to totalWeekdays: with two absences
against a single weekday, the returned finalAbsences is 2 > 1 while the
returned rate is clamped to exactly 0. -/
theorem C10_final_absences_unclamped :
    1 < (calculate absentTwice 1).final_absences ∧
      (calculate absentTwice 1).rate = 0 := by
  constructor
  · decide
  · rw [calculate_rate_eq absentTwice 1 (by norm_num),
      show (calculate absentTwice 1).final_absences = 2 from by decide,
      round1_eq_of _ (-1000) (by norm_num), pymax_eq_max]
    exact max_eq_left (by norm_num)

/-- C3 counterexample: take "now" in October 2025.  The code sets the period
start to the current date, so the month containing the period start is the
month containing "now" — under the claim the series would then be the single
month (2025, 10).  The code instead produces August and September 2025 (its
walk starts at the hard-coded August 2025 and stops strictly before the
current month), and the month containing "now" is absent from the series. -/
theorem C3_series_counterexample :
    (initialize_sample_data (fun _ => AttendanceStatus.PRESENT) 2025 10).map Prod.fst =
        [(2025, 8), (2025, 9)]
    ∧ (2025, 10) ∉
        ((initialize_sample_data (fun _ => AttendanceStatus.PRESENT) 2025 10).map Prod.fst) := by
  constructor
  · decide
  · decide

/-- C3 (amended): the sample monthly series walks calendar months starting
at the fixed month August 2025 and stops strictly before the month
containing "now" (which is excluded), yielding exactly one result per
calendar month in ascending (year, month) order — the keys are the
consecutive months from 2025-08 up to but excluding (cy, cm) — each computed
with that month's own first/last calendar day span. -/
theorem C3_series_amended (statusOf : Nat → String) (cy cm : Nat)
    (h1 : 1 ≤ cm) (h2 : cm ≤ 12) :
    (initialize_sample_data statusOf cy cm).map Prod.fst =
        monthRange (monthIdx 2025 8) (monthIdx cy cm)
    ∧ ∀ p ∈ initialize_sample_data statusOf cy cm,
        p.2.weekdays =
          count_weekdays (dayNumber p.1.1 p.1.2 1)
            (dayNumber p.1.1 p.1.2 (daysInMonth p.1.1 p.1.2)) := by
  constructor
  · unfold initialize_sample_data monthIdx
    exact sampleLoop_keys statusOf (12 * cy + cm) 2025 8 cy cm (by norm_num) (by norm_num)
      h1 h2 (by omega)
  · intro p hp
    unfold initialize_sample_data at hp
    rw [sampleLoop_entry_shape statusOf (12 * cy + cm) 2025 8 cy cm p hp]
    rfl

/-- Witness for C3 (amended) with "now" in November 2025. -/
theorem C3_series_amended_witness :
    (initialize_sample_data (fun _ => AttendanceStatus.SICK) 2025 11).map Prod.fst =
      monthRange (monthIdx 2025 8) (monthIdx 2025 11) :=
  (C3_series_amended (fun _ => AttendanceStatus.SICK) 2025 11 (by norm_num) (by norm_num)).1

/-- C8: `save_current_month` computes the snapshot over the rolling period
(start date through start date plus one month) and writes it under exactly
the (year, month) key of the period's start date, overwriting whatever was
there, while every other key of the store — and the rest of the state — is
unchanged. -/
theorem C8_save_current_month_frame (st : AppState) (today : Nat)
    (hEnd : st.end_date = addMonths1 st.start_date) :
    (save_current_month today st).saved_monthly_records
        (st.start_date.year, st.start_date.month) =
      some { month := toString st.start_date.year ++ "년 " ++
               toString st.start_date.month ++ "월"
             rate := (calculate (get_period_data st)
               (count_weekdays (dayNum st.start_date) (dayNum (addMonths1 st.start_date)))).rate
             counts := (calculate (get_period_data st)
               (count_weekdays (dayNum st.start_date) (dayNum (addMonths1 st.start_date)))).counts
             weekdays := count_weekdays (dayNum st.start_date) (dayNum (addMonths1 st.start_date))
             saved_date := today }
    ∧ (∀ q : Nat × Nat, q ≠ (st.start_date.year, st.start_date.month) →
        (save_current_month today st).saved_monthly_records q = st.saved_monthly_records q)
    ∧ (save_current_month today st).attendance_data = st.attendance_data
    ∧ (save_current_month today st).start_date = st.start_date
    ∧ (save_current_month today st).end_date = st.end_date := by
  refine ⟨?_, ?_, rfl, rfl, rfl⟩
  · simp only [save_current_month]
    rw [if_pos trivial, hEnd]
  · intro q hq
    simp only [save_current_month]
    rw [if_neg hq]

/-- Witness for C8 at the concrete state `st0` (period 2025-08-15 to
2025-09-15): the snapshot lands under (2025, 8) and the untouched key
(2025, 9) still reads `none`. -/
theorem C8_save_current_month_frame_witness :
    (save_current_month 7 st0).saved_monthly_records
        (st0.start_date.year, st0.start_date.month) =
      some { month := toString st0.start_date.year ++ "년 " ++
               toString st0.start_date.month ++ "월"
             rate := (calculate (get_period_data st0)
               (count_weekdays (dayNum st0.start_date) (dayNum (addMonths1 st0.start_date)))).rate
             counts := (calculate (get_period_data st0)
               (count_weekdays (dayNum st0.start_date) (dayNum (addMonths1 st0.start_date)))).counts
             weekdays := count_weekdays (dayNum st0.start_date) (dayNum (addMonths1 st0.start_date))
             saved_date := 7 }
    ∧ (save_current_month 7 st0).saved_monthly_records (2025, 9) = none := by
  have h := C8_save_current_month_frame st0 7 (by decide)
  exact ⟨h.1, (h.2.1 (2025, 9) (by decide)).trans rfl⟩

/-- C9: after `initialize_data` runs over `[s, e]`, every weekday day in the
inclusive range has an entry, every pre-existing entry keeps its previous
status, and the only changes are missing weekday dates in the range, each
set to PRESENT. -/
theorem C9_initialize_data_conservative (data : Nat → Option String) (s e d : Nat) :
    (s ≤ d → d ≤ e → isWeekday d = true → initialize_data data s e d ≠ none)
    ∧ (∀ v, data d = some v → initialize_data data s e d = some v)
    ∧ (initialize_data data s e d ≠ data d →
        s ≤ d ∧ d ≤ e ∧ isWeekday d = true ∧ data d = none ∧
          initialize_data data s e d = some AttendanceStatus.PRESENT) := by
  have heq := initLoop_eq (e + 1 - s) data s e d le_rfl
  refine ⟨?_, ?_, ?_⟩
  · intro h1 h2 h3
    unfold initialize_data
    rw [heq]
    by_cases hN : data d = none
    · rw [if_pos ⟨h1, h2, h3, hN⟩]
      exact Option.noConfusion
    · rw [if_neg (fun hC => hN hC.2.2.2)]
      exact hN
  · intro v hv
    unfold initialize_data
    rw [heq, if_neg]
    · exact hv
    · rintro ⟨_, _, _, hN⟩
      rw [hv] at hN
      cases hN
  · intro hne
    unfold initialize_data at hne ⊢
    rw [heq] at hne ⊢
    by_cases hC : s ≤ d ∧ d ≤ e ∧ isWeekday d = true ∧ data d = none
    · exact ⟨hC.1, hC.2.1, hC.2.2.1, hC.2.2.2, if_pos hC⟩
    · rw [if_neg hC] at hne
      exact absurd rfl hne

/-- Witness for C9 over the week 2025-08-15 .. 2025-08-22: the pre-existing
sick entry at 2025-08-18 is preserved, and the missing weekday 2025-08-19 is
filled with PRESENT. -/
theorem C9_initialize_data_conservative_witness :
    initialize_data data9 (dayNumber 2025 8 15) (dayNumber 2025 8 22)
        (dayNumber 2025 8 18) = some AttendanceStatus.SICK
    ∧ initialize_data data9 (dayNumber 2025 8 15) (dayNumber 2025 8 22)
        (dayNumber 2025 8 19) = some AttendanceStatus.PRESENT :=
  ⟨(C9_initialize_data_conservative data9 (dayNumber 2025 8 15) (dayNumber 2025 8 22)
      (dayNumber 2025 8 18)).2.1 AttendanceStatus.SICK (by decide),
   ((C9_initialize_data_conservative data9 (dayNumber 2025 8 15) (dayNumber 2025 8 22)
      (dayNumber 2025 8 19)).2.2 (by decide)).2.2.2.2⟩

end AttendanceApp
